import Mathlib

-- Verification of the SillyTavern MCP Extension server against its design
-- specification.  The JavaScript sources are shallowly embedded: JSON values
-- become the inductive type JVal, each validation function of
-- src/utils/schema.js and src/utils/validation.js becomes a Lean function of
-- the same name (inside a namespace named after its file), and the WebSocket
-- message handlers of src/index.js become pure functions from a registry and
-- a message to the new registry plus the list of (destination, message)
-- sends.
--
-- Modelling conventions, fixed once for the whole file:
--  * JSON numbers are exact rationals (the sources never rely on float
--    rounding except through the % operator, see jsRem below).
--  * JSON strings are Lean Strings (sequences of Unicode scalar values);
--    the JavaScript `.length` (UTF-16 code units) is modelled by utf16Len.
--  * Values reaching the validators come from JSON.parse, so two distinct
--    object or array slots are never the same reference.  JavaScript
--    SameValueZero equality (used by `new Set` and `Array.includes`) is
--    therefore modelled by svz, which equates primitives by value and never
--    equates objects or arrays.
--  * The JavaScript RegExp engine and the URL parser are external to the
--    program; they are passed in as an oracle record JsOracles.
--  * Property access `o.k` on JSON data is jGet, returning none for a
--    missing key (JavaScript undefined); the `in` operator is modelled as
--    own-key membership (prototype-chain keys are not modelled).
--  * Logging calls are side effects invisible to peers and are dropped.

set_option maxRecDepth 10000

-- ====================================================================
-- JSON values
-- ====================================================================

inductive JVal where
  | null : JVal
  | bool (b : Bool) : JVal
  | num (q : ℚ) : JVal
  | str (s : String) : JVal
  | arr (xs : List JVal) : JVal
  | obj (fields : List (String × JVal)) : JVal

-- Own-property lookup on an object's field list (first binding wins; field
-- lists produced by JSON.parse have unique keys).
def listGet : List (String × JVal) → String → Option JVal
  | [], _ => none
  | (k, v) :: rest, key => if k = key then some v else listGet rest key

-- JavaScript property access `j[key]`: undefined (none) unless j is an
-- object that has the key.
def jGet : JVal → String → Option JVal
  | JVal.obj fields, key => listGet fields key
  | _, _ => none

-- JavaScript truthiness of a JSON value.
def truthy : JVal → Bool
  | JVal.null => false
  | JVal.bool b => b
  | JVal.num q => !(q == 0)
  | JVal.str s => !(s == "")
  | JVal.arr _ => true
  | JVal.obj _ => true

-- JavaScript typeof of a JSON value (typeof null is "object").
def jsTypeof : JVal → String
  | JVal.null => "object"
  | JVal.bool _ => "boolean"
  | JVal.num _ => "number"
  | JVal.str _ => "string"
  | JVal.arr _ => "object"
  | JVal.obj _ => "object"

-- The same notions for a possibly-missing value (undefined).
def truthyO : Option JVal → Bool
  | none => false
  | some v => truthy v

def jsTypeofO : Option JVal → String
  | none => "undefined"
  | some v => jsTypeof v

-- JavaScript String(x) conversion, used by template literals in error
-- messages.  For numbers we use the exact rational rendering; for arrays and
-- objects the JavaScript renderings are approximated by fixed strings (no
-- claim depends on them).
def jsToDisplay : JVal → String
  | JVal.null => "null"
  | JVal.bool true => "true"
  | JVal.bool false => "false"
  | JVal.num q => toString q
  | JVal.str s => s
  | JVal.arr _ => "[array]"
  | JVal.obj _ => "[object Object]"

def jsToDisplayO : Option JVal → String
  | none => "undefined"
  | some v => jsToDisplay v

-- SameValueZero on parsed JSON values: primitives compare by value, object
-- and array slots are distinct fresh references and never compare equal.
def svz : JVal → JVal → Bool
  | JVal.null, JVal.null => true
  | JVal.bool a, JVal.bool b => a == b
  | JVal.num a, JVal.num b => a == b
  | JVal.str a, JVal.str b => a == b
  | _, _ => false

-- The element list of `new Set(xs)` (first occurrences, SameValueZero).
def jsSetElems : List JVal → List JVal
  | [] => []
  | x :: xs =>
    let r := jsSetElems xs
    if r.any (svz x) then r else x :: r

-- `new Set(xs).size`.
def jsSetSize (xs : List JVal) : Nat := (jsSetElems xs).length

-- Whether xs contains two slots that are SameValueZero-equal.
def hasDup : List JVal → Bool
  | [] => false
  | x :: xs => xs.any (svz x) || hasDup xs

-- `xs.includes(v)` (SameValueZero membership).
def jsIncludes (xs : List JVal) (v : JVal) : Bool := xs.any (svz v)

-- JavaScript String.prototype.length: UTF-16 code units.  Scalar values
-- above the Basic Multilingual Plane occupy a surrogate pair.
def utf16Len (s : String) : Nat :=
  (s.toList.map (fun c => if c.toNat < 65536 then 1 else 2)).sum

-- Truncating division as used by the JavaScript % operator on numbers.
def jsTrunc (q : ℚ) : ℤ := if 0 ≤ q then ⌊q⌋ else ⌈q⌉

-- JavaScript a % b for finite b ≠ 0 (the b = 0 case yields NaN and is
-- special-cased at each use site).
def jsRem (a b : ℚ) : ℚ := a - b * (jsTrunc (a / b) : ℚ)

-- External JavaScript runtime facilities used by the validator: the RegExp
-- engine (pattern source, subject) and the URL parser success predicate.
structure JsOracles where
  regexTest : String → String → Bool
  uriOk : String → Bool

-- sizeOf facts used by the termination arguments below.

theorem sizeOf_listGet {fields : List (String × JVal)} {k : String} {v : JVal}
    (h : listGet fields k = some v) : sizeOf v < sizeOf fields := by
  induction fields with
  | nil => simp [listGet] at h
  | cons p rest ih =>
    obtain ⟨k1, v1⟩ := p
    by_cases hk : k1 = k
    · simp [listGet, hk] at h
      subst h
      simp
      omega
    · simp [listGet, hk] at h
      have := ih h
      simp
      omega

theorem sizeOf_jGet {j : JVal} {k : String} {v : JVal}
    (h : jGet j k = some v) : sizeOf v < sizeOf j := by
  cases j with
  | obj fields =>
    simp [jGet] at h
    have := sizeOf_listGet h
    simp
    omega
  | null => simp [jGet] at h
  | bool b => simp [jGet] at h
  | num q => simp [jGet] at h
  | str s => simp [jGet] at h
  | arr xs => simp [jGet] at h

-- ====================================================================
-- src/utils/schema.js
-- ====================================================================

namespace SchemaJs

-- Object.values(MCPMessageTypes) in declaration order.
def MCPMessageTypesList : List String :=
  ["discover", "discover_response", "register_tool", "register_tool_response",
   "execute_tool", "execute_tool_response", "execution_status", "error"]

-- Object.values(MCPCapabilities).
def MCPCapabilitiesList : List String :=
  ["tool_execution", "streaming", "async_execution"]

-- function validateType(value, type) — the type argument is the raw JSON
-- value found in the schema's `type` field; any non-string (or unknown
-- string) falls through to the default branch and yields false.
def validateType (value : JVal) (t : JVal) : Bool :=
  match t with
  | JVal.str "string" =>
    match value with | JVal.str _ => true | _ => false
  | JVal.str "number" =>
    -- typeof value === 'number' && !isNaN(value): NaN is not representable
    -- in parsed JSON, so the isNaN guard never fires in this model.
    match value with | JVal.num _ => true | _ => false
  | JVal.str "integer" =>
    match value with | JVal.num q => q.den = 1 | _ => false
  | JVal.str "boolean" =>
    match value with | JVal.bool _ => true | _ => false
  | JVal.str "array" =>
    match value with | JVal.arr _ => true | _ => false
  | JVal.str "object" =>
    match value with | JVal.obj _ => true | _ => false
  | JVal.str "null" =>
    match value with | JVal.null => true | _ => false
  | _ => false

def validateTypeO (value : JVal) : Option JVal → Bool
  | none => false
  | some t => validateType value t

-- The field list of an object value (callers only reach this after the
-- type check has established that the value is an object).
def fieldsOf : JVal → List (String × JVal)
  | JVal.obj fields => fields
  | _ => []

def elemsOf : JVal → List JVal
  | JVal.arr xs => xs
  | _ => []

def strOf : JVal → String
  | JVal.str s => s
  | _ => ""

def numOf : JVal → ℚ
  | JVal.num q => q
  | _ => 0

-- The `required` loop of validateSchema: for (const required of
-- schema.required) { if (!(required in value)) errors.push(...) }.
def requiredErrors (fields : List (String × JVal)) : List JVal → List String
  | [] => []
  | r :: rest =>
    (if (listGet fields (jsToDisplay r)).isNone then
      ["Missing required property: " ++ jsToDisplay r]
    else []) ++ requiredErrors fields rest


-- The string-validation block of validateSchema.
def stringErrors (o : JsOracles) (schema : JVal) (s : String) : List String :=
  (match jGet schema "minLength" with
   | some (JVal.num m) =>
     if (utf16Len s : ℚ) < m then
       ["String length must be >= " ++ jsToDisplay (JVal.num m)]
     else []
   | _ => []) ++
  (match jGet schema "maxLength" with
   | some (JVal.num m) =>
     if (utf16Len s : ℚ) > m then
       ["String length must be <= " ++ jsToDisplay (JVal.num m)]
     else []
   | _ => []) ++
  (match jGet schema "pattern" with
   | some p =>
     if truthy p then
       if o.regexTest (jsToDisplay p) s then []
       else ["String must match pattern: " ++ jsToDisplay p]
     else []
   | none => []) ++
  (match jGet schema "format" with
   | some (JVal.str "email") =>
     if s.contains (Char.ofNat 64) then [] else ["Invalid email format"]
   | some (JVal.str "uri") =>
     if o.uriOk s then [] else ["Invalid URI format"]
   | _ => [])

-- The number-validation block of validateSchema.  The multipleOf branch
-- mirrors `value % schema.multipleOf !== 0`; for a zero divisor the
-- JavaScript remainder is NaN, which is !== 0, so the error always fires.
def numberErrors (schema : JVal) (q : ℚ) : List String :=
  (match jGet schema "minimum" with
   | some (JVal.num m) =>
     if q < m then ["Value must be >= " ++ jsToDisplay (JVal.num m)] else []
   | _ => []) ++
  (match jGet schema "maximum" with
   | some (JVal.num m) =>
     if q > m then ["Value must be <= " ++ jsToDisplay (JVal.num m)] else []
   | _ => []) ++
  (match jGet schema "multipleOf" with
   | some (JVal.num d) =>
     if d = 0 ∨ jsRem q d ≠ 0 then
       ["Value must be multiple of " ++ jsToDisplay (JVal.num d)]
     else []
   | _ => [])

-- The array-bounds-and-uniqueness part of the array block.
def arrayBoundErrors (schema : JVal) (xs : List JVal) : List String :=
  (match jGet schema "minItems" with
   | some (JVal.num m) =>
     if (xs.length : ℚ) < m then
       ["Array must have at least " ++ jsToDisplay (JVal.num m) ++ " items"]
     else []
   | _ => []) ++
  (match jGet schema "maxItems" with
   | some (JVal.num m) =>
     if (xs.length : ℚ) > m then
       ["Array must have at most " ++ jsToDisplay (JVal.num m) ++ " items"]
     else []
   | _ => []) ++
  (match jGet schema "uniqueItems" with
   | some u =>
     if truthy u then
       if jsSetSize xs ≠ xs.length then ["Array items must be unique"] else []
     else []
   | none => [])

-- The enum block: `schema.enum !== undefined && !schema.enum.includes(value)`.
-- A present non-array enum would make .includes throw at runtime; no claim
-- exercises that crash path and it is modelled as producing no error.
def enumErrors (schema : JVal) (value : JVal) : List String :=
  match jGet schema "enum" with
  | some (JVal.arr es) =>
    if jsIncludes es value then []
    else ["Value must be one of: " ++
      String.intercalate ", " (es.map jsToDisplay)]
  | _ => []

mutual

-- function validateSchema(value, schema) of src/utils/schema.js: returns the
-- error list (the source's { valid, errors } with valid = errors.length === 0).
def validateSchema (o : JsOracles) (value schema : JVal) : List String :=
  let tOpt := jGet schema "type"
  -- if (schema.type) { if (!validateType(value, schema.type)) return ... }
  if truthyO tOpt && !(validateTypeO value tOpt) then
    ["Expected type " ++ jsToDisplayO tOpt ++ ", got " ++ jsTypeof value]
  else
    -- required properties: if (schema.required && schema.type === 'object')
    (match jGet schema "required", tOpt with
     | some req, some (JVal.str "object") =>
       if truthy req then
         match req with
         | JVal.arr rs => requiredErrors (fieldsOf value) rs
         | _ => []  -- a truthy non-array `required` throws at runtime
       else []
     | _, _ => []) ++
    -- property validation: if (schema.properties && schema.type === 'object')
    (match hpp : jGet schema "properties", tOpt with
     | some props, some (JVal.str "object") =>
       if truthy props then
         match hp : props with
         | JVal.obj pf => validatePropList o (fieldsOf value) pf
         | _ => []  -- Object.entries of a non-object yields nothing useful
       else []
     | _, _ => []) ++
    -- array validation: if (schema.type === 'array')
    (match tOpt with
     | some (JVal.str "array") =>
       (match hi : jGet schema "items" with
        | some items =>
          if truthy items then validateItemList o 0 (elemsOf value) items
          else []
        | none => []) ++
       arrayBoundErrors schema (elemsOf value)
     | _ => []) ++
    -- string validation
    (match tOpt with
     | some (JVal.str "string") => stringErrors o schema (strOf value)
     | _ => []) ++
    -- number validation
    (match tOpt with
     | some (JVal.str "number") => numberErrors schema (numOf value)
     | some (JVal.str "integer") => numberErrors schema (numOf value)
     | _ => []) ++
    -- enum validation
    enumErrors schema value
termination_by (sizeOf schema, 0)
decreasing_by
  · have h1 := sizeOf_jGet hpp
    subst hp
    simp at h1
    apply Prod.Lex.left
    omega
  · have := sizeOf_jGet hi
    apply Prod.Lex.left
    omega

-- The properties loop: for (const [key, propSchema] of
-- Object.entries(schema.properties)) { if (key in value) ... }.
def validatePropList (o : JsOracles) (fields : List (String × JVal)) :
    List (String × JVal) → List String
  | [] => []
  | (k, psch) :: rest =>
    (match listGet fields k with
     | some pv =>
       let errs := validateSchema o pv psch
       if errs = [] then []
       else ["Property " ++ k ++ ": " ++ String.intercalate ", " errs]
     | none => []) ++ validatePropList o fields rest
termination_by pf => (sizeOf pf, 0)
decreasing_by
  all_goals apply Prod.Lex.left <;> simp <;> omega

-- The element loop of the array block: for (let i = 0; i < value.length;
-- i++) { validateSchema(value[i], schema.items) ... }, prefixing sub-errors
-- with the element index.
def validateItemList (o : JsOracles) (idx : Nat) (xs : List JVal)
    (items : JVal) : List String :=
  match xs with
  | [] => []
  | x :: rest =>
    (let errs := validateSchema o x items
     if errs = [] then []
     else ["Array item " ++ toString idx ++ ": " ++ String.intercalate ", " errs])
      ++ validateItemList o (idx + 1) rest items
termination_by (sizeOf items, xs.length + 1)
decreasing_by
  all_goals apply Prod.Lex.right <;> simp <;> omega

end

mutual

-- function validateToolSchema(schema) of src/utils/schema.js.  Note that it
-- checks only type presence, the JS types of `properties`/`required`, and
-- the property sub-schemas; it performs no check of `items` at all.
def validateToolSchema (schema : JVal) : List String :=
  if !(truthy schema) || jsTypeof schema ≠ "object" then
    ["Schema must be an object"]
  else
    (if truthyO (jGet schema "type") then [] else ["Schema must have a type field"]) ++
    (match jGet schema "properties" with
     | some p => if truthy p && jsTypeof p ≠ "object" then ["Properties must be an object"] else []
     | none => []) ++
    (match jGet schema "required" with
     | some r =>
       if truthy r then
         match r with
         | JVal.arr _ => []
         | _ => ["Required must be an array"]
       else []
     | none => []) ++
    (match hp : jGet schema "properties" with
     | some p =>
       if truthy p then
         match hq : p with
         | JVal.obj pf => toolSchemaPropList pf
         | _ => []
       else []
     | none => [])
termination_by sizeOf schema
decreasing_by
  · have h1 := sizeOf_jGet hp
    subst hq
    simp at h1
    omega

def toolSchemaPropList : List (String × JVal) → List String
  | [] => []
  | (k, psch) :: rest =>
    (let errs := validateToolSchema psch
     if errs = [] then []
     else ["Invalid property schema for " ++ k ++ ": " ++ String.intercalate ", " errs])
      ++ toolSchemaPropList rest
termination_by pf => sizeOf pf
decreasing_by
  all_goals simp <;> omega

end

end SchemaJs

-- ====================================================================
-- Errors (src/utils/errors.js): an MCPError carries a code and a message.
-- ====================================================================

structure MCPErr where
  code : String
  message : String
deriving DecidableEq

-- ====================================================================
-- src/utils/validation.js
-- ====================================================================

namespace ValidationJs

-- function validateToolExecution(data): throws on bad shape.  Note the args
-- check: `data.args !== undefined && typeof data.args !== 'object'` — an
-- explicitly-null args passes because typeof null is 'object'.
def validateToolExecution (data : Option JVal) : Except MCPErr Unit :=
  if !(truthyO data) || jsTypeofO data ≠ "object" then
    .error ⟨"INVALID_ARGUMENTS", "Tool execution data must be an object"⟩
  else
    let d := data.getD JVal.null
    let eid := jGet d "executionId"
    if !(truthyO eid) || jsTypeofO eid ≠ "string" then
      .error ⟨"INVALID_ARGUMENTS", "Tool execution ID must be a non-empty string"⟩
    else
      let nm := jGet d "name"
      if !(truthyO nm) || jsTypeofO nm ≠ "string" then
        .error ⟨"INVALID_NAME", "Tool name must be a non-empty string"⟩
      else
        match jGet d "args" with
        | none => .ok ()
        | some a =>
          if jsTypeof a ≠ "object" then
            .error ⟨"INVALID_ARGUMENTS", "Tool arguments must be an object if provided"⟩
          else .ok ()

-- The trailing constraint checks of validateArraySchema (minItems/maxItems
-- must be numbers if present, uniqueItems a boolean if present).
def arrayConstraintChecks (schema : JVal) : Except MCPErr Unit :=
  let c1 : Except MCPErr Unit :=
    match jGet schema "minItems" with
    | none => Except.ok ()
    | some v =>
      if jsTypeof v ≠ "number" then
        Except.error ⟨"INVALID_SCHEMA", "minItems must be a number"⟩
      else Except.ok ()
  let c2 : Except MCPErr Unit :=
    match jGet schema "maxItems" with
    | none => Except.ok ()
    | some v =>
      if jsTypeof v ≠ "number" then
        Except.error ⟨"INVALID_SCHEMA", "maxItems must be a number"⟩
      else Except.ok ()
  let c3 : Except MCPErr Unit :=
    match jGet schema "uniqueItems" with
    | none => Except.ok ()
    | some v =>
      if jsTypeof v ≠ "boolean" then
        Except.error ⟨"INVALID_SCHEMA", "uniqueItems must be a boolean"⟩
      else Except.ok ()
  c1.bind (fun _ => c2.bind (fun _ => c3))

-- `schema.properties[prop]` for the required-property check.
def propLookup (props : Option JVal) (r : JVal) : Option JVal :=
  match props with
  | some (JVal.obj pf) => listGet pf (jsToDisplay r)
  | _ => none

-- The required forEach of validateObjectSchema: throws at the first
-- required name whose entry in `properties` is falsy.
def requiredDefinedLoop (props : Option JVal) : List JVal → Except MCPErr Unit
  | [] => .ok ()
  | r :: rest =>
    if !(truthyO (propLookup props r)) then
      .error ⟨"INVALID_SCHEMA", "Required property not defined: " ++ jsToDisplay r⟩
    else requiredDefinedLoop props rest

-- The `required` half of validateObjectSchema.
def requiredCheck (schema : JVal) : Except MCPErr Unit :=
  match jGet schema "required" with
  | none => .ok ()
  | some r =>
    if truthy r then
      match r with
      | JVal.arr rs =>
        if !(truthyO (jGet schema "properties")) then
          .error ⟨"INVALID_SCHEMA",
            "Cannot have required properties without properties definition"⟩
        else requiredDefinedLoop (jGet schema "properties") rs
      | _ => .error ⟨"INVALID_SCHEMA", "Required properties must be an array"⟩
    else .ok ()

mutual

-- function validateSchema(schema) of src/utils/validation.js: exception
-- style, so only the first violation found is ever reported.
def validateSchema (schema : JVal) : Except MCPErr Unit :=
  if !(truthy schema) || jsTypeof schema ≠ "object" then
    .error ⟨"INVALID_SCHEMA", "Schema must be an object"⟩
  else if !(truthyO (jGet schema "type")) then
    .error ⟨"INVALID_SCHEMA", "Schema must have a type"⟩
  else
    match jGet schema "type" with
    | some (JVal.str "object") => validateObjectSchema schema
    | some (JVal.str "array") => validateArraySchema schema
    | some (JVal.str "string") => .ok ()
    | some (JVal.str "number") => .ok ()
    | some (JVal.str "integer") => .ok ()
    | some (JVal.str "boolean") => .ok ()
    | some (JVal.str "null") => .ok ()
    | t => .error ⟨"INVALID_SCHEMA", "Invalid schema type: " ++ jsToDisplayO t⟩
termination_by 2 * sizeOf schema + 1
decreasing_by
  · omega
  · omega

-- function validateObjectSchema(schema): first the properties block
-- (Object.values(schema.properties).forEach(validateSchema)), then the
-- required block, exactly in source order.
def validateObjectSchema (schema : JVal) : Except MCPErr Unit :=
  Except.bind
    ((match hp : jGet schema "properties" with
      | some p =>
        if truthy p then
          if jsTypeof p ≠ "object" then
            Except.error ⟨"INVALID_SCHEMA", "Object properties must be an object"⟩
          else
            match hq : p with
            | JVal.obj pf => validateSchemaFieldList pf
            | _ => Except.ok ()  -- properties as array: not exercised by any claim
        else Except.ok ()
      | none => Except.ok ()) : Except MCPErr Unit)
    (fun _ => requiredCheck schema)
termination_by 2 * sizeOf schema
decreasing_by
  · have h1 := sizeOf_jGet hp
    subst hq
    simp at h1
    omega

-- function validateArraySchema(schema): `if (!schema.items) throw ...` then
-- validateSchema(schema.items) then the constraint checks.
def validateArraySchema (schema : JVal) : Except MCPErr Unit :=
  match hi : jGet schema "items" with
  | some it =>
    if truthy it then
      (validateSchema it).bind (fun _ => arrayConstraintChecks schema)
    else
      Except.error ⟨"INVALID_SCHEMA", "Array schema must have items definition"⟩
  | none =>
    Except.error ⟨"INVALID_SCHEMA", "Array schema must have items definition"⟩
termination_by 2 * sizeOf schema
decreasing_by
  · have := sizeOf_jGet hi
    omega

-- Object.values(schema.properties).forEach(validateSchema): stops at the
-- first property whose schema throws.
def validateSchemaFieldList : List (String × JVal) → Except MCPErr Unit
  | [] => .ok ()
  | (_, v) :: rest =>
    (validateSchema v).bind (fun _ => validateSchemaFieldList rest)
termination_by pf => 2 * sizeOf pf
decreasing_by
  all_goals simp <;> omega

end

-- function validateToolRegistration(data): throws on bad shape.  The
-- argument is Option JVal because callers may pass an absent field
-- (undefined).
def validateToolRegistration (data : Option JVal) : Except MCPErr Unit :=
  if !(truthyO data) || jsTypeofO data ≠ "object" then
    .error ⟨"INVALID_ARGUMENTS", "Tool registration data must be an object"⟩
  else
    let d := data.getD JVal.null
    let nm := jGet d "name"
    if !(truthyO nm) || jsTypeofO nm ≠ "string" then
      .error ⟨"INVALID_NAME", "Tool name must be a non-empty string"⟩
    else
      let sch := jGet d "schema"
      if !(truthyO sch) || jsTypeofO sch ≠ "object" then
        .error ⟨"INVALID_SCHEMA", "Tool schema must be an object"⟩
      else
        validateSchema (sch.getD JVal.null)


end ValidationJs

-- ====================================================================
-- src/utils/schema.js, message-level validators.  validateMCPMessage refers
-- to validateToolRegistration / validateToolExecution, which are defined in
-- src/utils/validation.js (schema.js has no import for them; the embedding
-- resolves the names to those definitions).  Note that the source passes the
-- whole message object to them, not message.data.
-- ====================================================================

namespace SchemaJs

-- forEach over server.capabilities: throws at the first capability not in
-- Object.values(MCPCapabilities).
def capabilityLoop : List JVal → Except MCPErr Unit
  | [] => .ok ()
  | c :: rest =>
    match c with
    | JVal.str s =>
      if s ∈ MCPCapabilitiesList then capabilityLoop rest
      else .error ⟨"INVALID_MESSAGE", "Invalid capability: " ++ s⟩
    | other => .error ⟨"INVALID_MESSAGE", "Invalid capability: " ++ jsToDisplay other⟩

-- function validateDiscoverResponse(message).
def validateDiscoverResponse (m : JVal) : Except MCPErr Unit :=
  let server := jGet m "server"
  if !(truthyO server) || jsTypeofO server ≠ "object" then
    .error ⟨"INVALID_MESSAGE", "Discover response must include server information"⟩
  else
    let sv := server.getD JVal.null
    let nm := jGet sv "name"
    if !(truthyO nm) || jsTypeofO nm ≠ "string" then
      .error ⟨"INVALID_MESSAGE", "Server must have a name"⟩
    else
      match jGet sv "capabilities" with
      | some (JVal.arr cs) => capabilityLoop cs
      | _ => .error ⟨"INVALID_MESSAGE", "Server capabilities must be an array"⟩

-- function validateErrorMessage(message).
def validateErrorMessage (m : JVal) : Except MCPErr Unit :=
  let e := jGet m "error"
  if !(truthyO e) || jsTypeofO e ≠ "object" then
    .error ⟨"INVALID_MESSAGE", "Error message must include error information"⟩
  else
    let ev := e.getD JVal.null
    let code := jGet ev "code"
    if !(truthyO code) || jsTypeofO code ≠ "string" then
      .error ⟨"INVALID_MESSAGE", "Error must have a code"⟩
    else
      let msg := jGet ev "message"
      if !(truthyO msg) || jsTypeofO msg ≠ "string" then
        .error ⟨"INVALID_MESSAGE", "Error must have a message"⟩
      else .ok ()

-- function validateMCPMessage(message): envelope shape validation.  The
-- per-type switch passes the whole message to the payload validators
-- (faithful to the source); response/status types have no case and fall
-- through without further checks.
def validateMCPMessage (m : JVal) : Except MCPErr Unit :=
  if !(truthy m) || jsTypeof m ≠ "object" then
    .error ⟨"INVALID_MESSAGE", "Message must be an object"⟩
  else
    let t := jGet m "type"
    if !(truthyO t) || jsTypeofO t ≠ "string" then
      .error ⟨"INVALID_MESSAGE", "Message must have a type"⟩
    else
      match t with
      | some (JVal.str s) =>
        if s ∈ MCPMessageTypesList then
          match s with
          | "discover" => .ok ()
          | "discover_response" => validateDiscoverResponse m
          | "register_tool" => ValidationJs.validateToolRegistration (some m)
          | "execute_tool" => ValidationJs.validateToolExecution (some m)
          | "error" => validateErrorMessage m
          | _ => .ok ()
        else .error ⟨"INVALID_MESSAGE", "Invalid message type: " ++ s⟩
      | _ => .ok ()  -- unreachable: the typeof check above ensures a string

end SchemaJs

-- ====================================================================
-- src/index.js — the WebSocket message router.  A peer connection is a
-- Conn (its id and whether it is currently open); a handler's effect is the
-- list of (destination id, message) sends it performs, in order.  The
-- module-level registeredTools Map is threaded through as `reg`; `now`
-- stands for new Date().toISOString().
-- ====================================================================

namespace IndexJs

structure Conn where
  id : Nat
  isOpen : Bool

-- The tool record built by handleToolRegistration (fields may be absent in
-- the payload, hence Option).
structure Tool where
  name : Option JVal
  schema : Option JVal
  description : Option JVal
  registeredAt : String

-- The module-level registeredTools Map.
def Registry := List (String × Tool)

-- Outbound wire messages (payload fields that claims inspect are kept;
-- constant server-info payloads are elided).
inductive Msg where
  | discoverResponse : Msg
  | registerToolResponse (success : Bool) (tool : Tool) : Msg
  | registerToolBroadcast (tool : Tool) : Msg
  | executionStatus (executionId : Option JVal) (status : String)
      (result : Option JVal) (error : Option MCPErr) : Msg
  | executeToolResponse (executionId : Option JVal) (result : JVal) : Msg
  | errMsg (code : String) (message : String) (executionId : Option JVal) : Msg

-- What happens during handleToolExecution, in order: sends to peers and the
-- single invocation of the tool handler (executeTool).
inductive ExecEvent where
  | send (dest : Nat) (m : Msg) : ExecEvent
  | handlerInvoked (name : Option JVal) (args : Option JVal) : ExecEvent

def ExecEvent.dest : ExecEvent → Option Nat
  | .send d _ => some d
  | .handlerInvoked _ _ => none

def sendsOf (evs : List ExecEvent) : List (Nat × Msg) :=
  evs.filterMap (fun e =>
    match e with
    | .send d m => some (d, m)
    | _ => none)

-- async function executeTool(name, args): the placeholder handler of the
-- source, which always throws TOOL_NOT_FOUND.
def executeTool (name args : Option JVal) : Except MCPErr JVal :=
  .error ⟨"TOOL_NOT_FOUND", "Tool not implemented: " ++ jsToDisplayO name⟩

-- async function handleToolExecution(ws, data): all status updates and the
-- final response go through ws.send, i.e. to the originating peer only.
-- The handler is abstract here (the source's executeTool is one instance).
def handleToolExecution (handler : Option JVal → Option JVal → Except MCPErr JVal)
    (origin : Nat) (data : JVal) : List ExecEvent :=
  let executionId := jGet data "executionId"
  let name := jGet data "name"
  let args := jGet data "args"
  [ExecEvent.send origin (Msg.executionStatus executionId "started" none none),
   ExecEvent.handlerInvoked name args] ++
  match handler name args with
  | .ok result =>
    [ExecEvent.send origin (Msg.executionStatus executionId "completed" (some result) none),
     ExecEvent.send origin (Msg.executeToolResponse executionId result)]
  | .error e =>
    -- catch: error.code || ErrorCodes.TOOL_EXECUTION_FAILED
    let code := if e.code = "" then "TOOL_EXECUTION_FAILED" else e.code
    [ExecEvent.send origin (Msg.executionStatus executionId "failed" none (some ⟨code, e.message⟩)),
     ExecEvent.send origin (Msg.errMsg code e.message executionId)]

-- wsServer.clients.forEach((client) => { if (client !== ws &&
-- client.readyState === WebSocket.OPEN) client.send(...) })
def broadcastTargets (clients : List Conn) (origin : Nat) : List Conn :=
  clients.filter (fun c => c.id != origin && c.isOpen)

-- function handleToolRegistration(ws, data).  The source computes
-- validateToolSchema(schema) and ignores the result, builds the tool
-- record, acknowledges the origin, and broadcasts to every other open
-- client.  Despite the "Store tool registration" comment in the source, the
-- tool is never inserted into registeredTools, so the registry is returned
-- unchanged.
def handleToolRegistration (clients : List Conn) (origin : Nat) (now : String)
    (reg : Registry) (data : JVal) : Registry × List (Nat × Msg) :=
  let name := jGet data "name"
  let schema := jGet data "schema"
  let description := jGet data "description"
  let tool : Tool := ⟨name, schema, description, now⟩
  (reg,
    (origin, Msg.registerToolResponse true tool) ::
    (broadcastTargets clients origin).map (fun c => (c.id, Msg.registerToolBroadcast tool)))

-- function handleDiscovery(ws): responds to the origin with the constant
-- server information.
def handleDiscovery (origin : Nat) : List (Nat × Msg) :=
  [(origin, Msg.discoverResponse)]

-- async function handleWebSocketMessage(ws, message): envelope validation
-- first, then the per-type dispatch; a throw anywhere is propagated to the
-- connection-level catch.
def handleWebSocketMessage (clients : List Conn) (origin : Nat) (now : String)
    (reg : Registry) (m : JVal) : Except MCPErr (Registry × List (Nat × Msg)) :=
  (SchemaJs.validateMCPMessage m).bind (fun _ =>
    match jGet m "type" with
    | some (JVal.str "discover") => .ok (reg, handleDiscovery origin)
    | some (JVal.str "register_tool") =>
      (ValidationJs.validateToolRegistration (jGet m "data")).bind (fun _ =>
        .ok (handleToolRegistration clients origin now reg ((jGet m "data").getD JVal.null)))
    | some (JVal.str "execute_tool") =>
      (ValidationJs.validateToolExecution (jGet m "data")).bind (fun _ =>
        .ok (reg, sendsOf (handleToolExecution executeTool origin ((jGet m "data").getD JVal.null))))
    | t => .error ⟨"INVALID_MESSAGE", "Unsupported message type: " ++ jsToDisplayO t⟩)

-- The ws.on('message') handler: a successful dispatch performs its sends; a
-- throw is caught and reported to the origin peer only, with
-- error.code || ErrorCodes.SERVER_ERROR.
def handleClientMessage (clients : List Conn) (origin : Nat) (now : String)
    (reg : Registry) (m : JVal) : Registry × List (Nat × Msg) :=
  match handleWebSocketMessage clients origin now reg m with
  | .ok r => r
  | .error e =>
    (reg, [(origin, Msg.errMsg (if e.code = "" then "SERVER_ERROR" else e.code) e.message none)])

end IndexJs

-- ====================================================================
-- Shared concrete objects for the claim theorems
-- ====================================================================

-- Oracle instance for evaluating concrete examples (no claim exercises
-- `pattern` or `format: uri`, so the choice is irrelevant).
def noOracles : JsOracles := ⟨fun _ _ => true, fun _ => true⟩

-- The §8 example tool schema: {type: object, properties: {x: {type: string}},
-- required: [x]}.
def echoSchema : JVal :=
  JVal.obj [("type", JVal.str "object"),
    ("properties", JVal.obj [("x", JVal.obj [("type", JVal.str "string")])]),
    ("required", JVal.arr [JVal.str "x"])]

-- An execute_tool payload naming the echo tool with args = {} (which does
-- not satisfy echoSchema: x is required).
def c1payload : JVal :=
  JVal.obj [("executionId", JVal.str "exec-1"), ("name", JVal.str "echo"),
    ("args", JVal.obj [])]

-- ====================================================================
-- C10
-- ====================================================================

/-- C10: the execute_tool payload validator accepts args === null (typeof
null is 'object'), and in general an args field present in the payload is
rejected precisely when its JavaScript type is not 'object'. -/
theorem c10_theorem :
    (∀ (fields : List (String × JVal)) (e n : String), e ≠ "" → n ≠ "" →
      listGet fields "executionId" = some (JVal.str e) →
      listGet fields "name" = some (JVal.str n) →
      listGet fields "args" = some JVal.null →
      ValidationJs.validateToolExecution (some (JVal.obj fields)) = .ok ()) ∧
    (∀ (fields : List (String × JVal)) (e n : String) (a : JVal), e ≠ "" → n ≠ "" →
      listGet fields "executionId" = some (JVal.str e) →
      listGet fields "name" = some (JVal.str n) →
      listGet fields "args" = some a →
      (ValidationJs.validateToolExecution (some (JVal.obj fields)) = .ok () ↔
        jsTypeof a = "object")) := by
  constructor
  · intro fields e n he hn heid hnm hargs
    simp [ValidationJs.validateToolExecution, truthyO, jsTypeofO, jGet, heid, hnm, hargs,
      truthy, jsTypeof, he, hn]
  · intro fields e n a he hn heid hnm hargs
    by_cases hao : jsTypeof a = "object"
    · simp [ValidationJs.validateToolExecution, truthyO, jsTypeofO, jGet, heid, hnm, hargs,
        truthy, jsTypeof, he, hn, hao]
    · simp [ValidationJs.validateToolExecution, truthyO, jsTypeofO, jGet, heid, hnm, hargs,
        truthy, jsTypeof, he, hn, hao]

/-- C10 witness: the concrete payload {executionId: "exec-1", name: "echo",
args: null} passes validateToolExecution, and the same payload with a string
args is rejected. -/
theorem c10_witness :
    ValidationJs.validateToolExecution (some (JVal.obj
      [("executionId", JVal.str "exec-1"), ("name", JVal.str "echo"),
       ("args", JVal.null)])) = .ok () ∧
    ¬ (ValidationJs.validateToolExecution (some (JVal.obj
      [("executionId", JVal.str "exec-1"), ("name", JVal.str "echo"),
       ("args", JVal.str "oops")])) = .ok ()) := by
  constructor
  · exact c10_theorem.1 _ "exec-1" "echo" (by decide) (by decide) (by rfl) (by rfl)
      (by rfl)
  · intro h
    have := (c10_theorem.2 _ "exec-1" "echo" (JVal.str "oops") (by decide) (by decide)
      (by rfl) (by rfl) (by rfl)).mp h
    simp [jsTypeof] at this

-- ====================================================================
-- C4
-- ====================================================================

/-- C4: every message emitted during handleToolExecution — the started
status, the completed/failed status and the final response or error
envelope — is addressed to the originating peer; no other peer receives any
execution-specific traffic. -/
theorem c4_theorem :
    ∀ (handler : Option JVal → Option JVal → Except MCPErr JVal)
      (origin : Nat) (data : JVal),
      (IndexJs.handleToolExecution handler origin data).filterMap
        IndexJs.ExecEvent.dest = [origin, origin, origin] := by
  intro handler origin data
  cases h : handler (jGet data "name") (jGet data "args") with
  | ok r =>
    simp [IndexJs.handleToolExecution, h, IndexJs.ExecEvent.dest]
  | error e =>
    simp [IndexJs.handleToolExecution, h, IndexJs.ExecEvent.dest]

-- ====================================================================
-- C3
-- ====================================================================

/-- C3: a message that fails envelope shape validation is answered with a
single error-typed message to the origin peer; no other peer is sent
anything and the registry is unchanged. -/
theorem c3_theorem :
    ∀ (clients : List IndexJs.Conn) (origin : Nat) (now : String)
      (reg : IndexJs.Registry) (m : JVal) (e : MCPErr),
      SchemaJs.validateMCPMessage m = .error e →
      IndexJs.handleClientMessage clients origin now reg m =
        (reg, [(origin, IndexJs.Msg.errMsg
          (if e.code = "" then "SERVER_ERROR" else e.code) e.message none)]) := by
  intro clients origin now reg m e h
  simp [IndexJs.handleClientMessage, IndexJs.handleWebSocketMessage, h, Except.bind]

/-- C3 witness: the envelope {type: "bogus"} fails validation and yields
exactly one INVALID_MESSAGE error to the origin, with a nonempty registry
left intact. -/
theorem c3_witness :
    IndexJs.handleClientMessage [⟨0, true⟩, ⟨1, true⟩] 0 "t"
      [("echo", ⟨some (JVal.str "echo"), some echoSchema, none, "t0"⟩)]
      (JVal.obj [("type", JVal.str "bogus")]) =
      ([("echo", ⟨some (JVal.str "echo"), some echoSchema, none, "t0"⟩)],
       [(0, IndexJs.Msg.errMsg "INVALID_MESSAGE" "Invalid message type: bogus" none)]) := by
  have h := c3_theorem [⟨0, true⟩, ⟨1, true⟩] 0 "t"
    [("echo", ⟨some (JVal.str "echo"), some echoSchema, none, "t0"⟩)]
    (JVal.obj [("type", JVal.str "bogus")])
    ⟨"INVALID_MESSAGE", "Invalid message type: bogus"⟩ (by rfl)
  simpa using h

-- ====================================================================
-- C2
-- ====================================================================

/-- C2: handleToolRegistration acknowledges the origin with a success
response carrying the tool record and broadcasts the record to every other
open peer, but — contrary to its own "Store tool registration" comment — it
never inserts the record into registeredTools: the registry comes back
unchanged on every input, so a subsequent lookup cannot return the new
descriptor. -/
theorem c2_theorem :
    (∀ (clients : List IndexJs.Conn) (origin : Nat) (now : String)
       (reg : IndexJs.Registry) (data : JVal),
       (IndexJs.handleToolRegistration clients origin now reg data).1 = reg) ∧
    IndexJs.handleToolRegistration [⟨0, true⟩, ⟨1, true⟩, ⟨2, false⟩] 0 "t0" []
      (JVal.obj [("name", JVal.str "echo"), ("schema", echoSchema)]) =
      ([], [(0, IndexJs.Msg.registerToolResponse true
              ⟨some (JVal.str "echo"), some echoSchema, none, "t0"⟩),
            (1, IndexJs.Msg.registerToolBroadcast
              ⟨some (JVal.str "echo"), some echoSchema, none, "t0"⟩)]) := by
  constructor
  · intro clients origin now reg data
    rfl
  · rfl

-- ====================================================================
-- C1
-- ====================================================================

/-- C1 counterexample: with args = {} — which does not satisfy the
registered echo schema (x is required) — payload validation succeeds, no
validation error is ever produced, and the handler is invoked anyway: the
full event trace is started-status, handler invocation, then the failure
produced by the handler itself (TOOL_NOT_FOUND from the placeholder), not by
any argument validation. -/
theorem c1_counterexample :
    ValidationJs.validateToolExecution (some c1payload) = .ok () ∧
    SchemaJs.validateSchema noOracles (JVal.obj []) echoSchema =
      ["Missing required property: x"] ∧
    IndexJs.handleToolExecution IndexJs.executeTool 0 c1payload =
      [IndexJs.ExecEvent.send 0 (IndexJs.Msg.executionStatus
         (some (JVal.str "exec-1")) "started" none none),
       IndexJs.ExecEvent.handlerInvoked (some (JVal.str "echo")) (some (JVal.obj [])),
       IndexJs.ExecEvent.send 0 (IndexJs.Msg.executionStatus
         (some (JVal.str "exec-1")) "failed" none
         (some ⟨"TOOL_NOT_FOUND", "Tool not implemented: echo"⟩)),
       IndexJs.ExecEvent.send 0 (IndexJs.Msg.errMsg
         "TOOL_NOT_FOUND" "Tool not implemented: echo" (some (JVal.str "exec-1")))] := by
  refine ⟨by rfl, ?_, by rfl⟩
  simp [SchemaJs.validateSchema, SchemaJs.validatePropList, SchemaJs.requiredErrors,
    SchemaJs.validateTypeO, SchemaJs.validateType, SchemaJs.fieldsOf, SchemaJs.enumErrors,
    echoSchema, jGet, listGet, truthyO, truthy, jsToDisplay]

/-- C1 amended: execution dispatch is guarded only by the shape checks of
validateToolExecution; the registered descriptor's schema is never consulted
(handleToolExecution does not even receive the registry), and the external
handler is invoked on every dispatched request regardless of the args
content. -/
theorem c1_amended :
    ∀ (handler : Option JVal → Option JVal → Except MCPErr JVal)
      (origin : Nat) (data : JVal),
      IndexJs.ExecEvent.handlerInvoked (jGet data "name") (jGet data "args") ∈
        IndexJs.handleToolExecution handler origin data := by
  intro handler origin data
  simp [IndexJs.handleToolExecution]

-- ====================================================================
-- C6 — uniqueItems semantics
-- ====================================================================

theorem svz_trans {x y z : JVal} (h1 : svz x y = true) (h2 : svz y z = true) :
    svz x z = true := by
  cases x <;> cases y <;> cases z <;> simp_all [svz]

theorem jsSetElems_any (xs : List JVal) :
    ∀ x : JVal, (jsSetElems xs).any (svz x) = xs.any (svz x) := by
  induction xs with
  | nil => intro x; rfl
  | cons y ys ih =>
    intro x
    by_cases h : (jsSetElems ys).any (svz y) = true
    · have hy : jsSetElems (y :: ys) = jsSetElems ys := by
        simp [jsSetElems, h]
      rw [hy, ih x, List.any_cons]
      by_cases hxy : svz x y = true
      · have hys2 : ys.any (svz y) = true := by
          rw [← ih y]
          exact h
        rw [List.any_eq_true] at hys2
        obtain ⟨z, hz, hyz⟩ := hys2
        have hxz := svz_trans hxy hyz
        have hys : ys.any (svz x) = true := List.any_eq_true.mpr ⟨z, hz, hxz⟩
        simp [hxy, hys]
      · simp [Bool.not_eq_true] at hxy
        simp [hxy]
    · have hy : jsSetElems (y :: ys) = y :: jsSetElems ys := by
        simp [jsSetElems, h]
      rw [hy, List.any_cons, List.any_cons, ih x]

theorem jsSetSize_le (xs : List JVal) : jsSetSize xs ≤ xs.length := by
  induction xs with
  | nil => simp [jsSetSize, jsSetElems]
  | cons x ys ih =>
    simp only [jsSetSize] at ih ⊢
    simp only [jsSetElems, List.length_cons]
    by_cases h : (jsSetElems ys).any (svz x) = true
    · rw [if_pos h]
      omega
    · rw [if_neg h]
      simp only [List.length_cons]
      omega

-- `new Set(xs).size === xs.length` holds exactly when no two slots of xs are
-- SameValueZero-equal.
theorem jsSetSize_eq_length_iff (xs : List JVal) :
    jsSetSize xs = xs.length ↔ hasDup xs = false := by
  induction xs with
  | nil => simp [jsSetSize, jsSetElems, hasDup]
  | cons x ys ih =>
    have hle := jsSetSize_le ys
    by_cases h : (jsSetElems ys).any (svz x) = true
    · have hy : jsSetSize (x :: ys) = jsSetSize ys := by
        simp [jsSetSize, jsSetElems, h]
      have hys : ys.any (svz x) = true := by
        rw [← jsSetElems_any ys x]
        exact h
      have hd : hasDup (x :: ys) = true := by
        simp [hasDup, hys]
      rw [hy, hd]
      simp
      omega
    · have hy : jsSetSize (x :: ys) = jsSetSize ys + 1 := by
        simp [jsSetSize, jsSetElems, h]
      have hys : ys.any (svz x) = false := by
        rw [← jsSetElems_any ys x]
        rw [Bool.not_eq_true] at h
        exact h
      have hd : hasDup (x :: ys) = hasDup ys := by
        simp [hasDup, hys]
      rw [hy, hd, List.length_cons]
      constructor
      · intro hh
        exact ih.mp (by omega)
      · intro hh
        have := ih.mpr hh
        omega

-- An array schema with uniqueItems: true (as in §8's testable property).
def uniqSchema : JVal :=
  JVal.obj [("type", JVal.str "array"), ("uniqueItems", JVal.bool true)]

-- A structured element; two occurrences of it in one parsed array are two
-- distinct object references.
def dupObj : JVal := JVal.obj [("a", JVal.num 1)]

/-- C6 counterexample: an array holding two structurally identical objects —
deep-value-equal, so the claim demands a "must be unique" error — passes the
uniqueItems check with no error, because `new Set` compares object elements
by reference (SameValueZero), and parsed JSON slots are distinct
references. -/
theorem c6_counterexample :
    SchemaJs.validateSchema noOracles (JVal.arr [dupObj, dupObj]) uniqSchema = [] := by
  simp [SchemaJs.validateSchema, uniqSchema, dupObj, jGet, listGet, SchemaJs.validateTypeO,
    SchemaJs.validateType, truthyO, truthy, SchemaJs.arrayBoundErrors,
    SchemaJs.enumErrors, SchemaJs.elemsOf, jsSetSize, jsSetElems, svz]

/-- C6 amended: under a uniqueItems schema an error (always exactly the one
message "Array items must be unique") is reported iff the array has two
slots equal under JavaScript SameValueZero — value equality for primitives,
never for object or array elements, which are fresh references from JSON
parsing; in particular [1,1] yields exactly one such error and [1,2] yields
none. -/
theorem c6_theorem :
    (∀ (o : JsOracles) (xs : List JVal),
      SchemaJs.validateSchema o (JVal.arr xs) uniqSchema =
        if hasDup xs = true then ["Array items must be unique"] else []) ∧
    SchemaJs.validateSchema noOracles (JVal.arr [JVal.num 1, JVal.num 1]) uniqSchema =
      ["Array items must be unique"] ∧
    SchemaJs.validateSchema noOracles (JVal.arr [JVal.num 1, JVal.num 2]) uniqSchema = [] := by
  refine ⟨?_, ?_, ?_⟩
  · intro o xs
    have hbase : SchemaJs.validateSchema o (JVal.arr xs) uniqSchema =
        if jsSetSize xs ≠ xs.length then ["Array items must be unique"] else [] := by
      simp [SchemaJs.validateSchema, uniqSchema, jGet, listGet, SchemaJs.validateTypeO,
        SchemaJs.validateType, truthyO, truthy, SchemaJs.arrayBoundErrors,
        SchemaJs.enumErrors, SchemaJs.elemsOf]
    rw [hbase]
    by_cases hd : hasDup xs = true
    · have : jsSetSize xs ≠ xs.length := by
        intro he
        rw [(jsSetSize_eq_length_iff xs).mp he] at hd
        exact Bool.false_ne_true hd
      simp [this, hd]
    · simp [Bool.not_eq_true] at hd
      have : jsSetSize xs = xs.length := (jsSetSize_eq_length_iff xs).mpr hd
      simp [this, hd]
  · simp [SchemaJs.validateSchema, uniqSchema, jGet, listGet, SchemaJs.validateTypeO,
      SchemaJs.validateType, truthyO, truthy, SchemaJs.arrayBoundErrors,
      SchemaJs.enumErrors, SchemaJs.elemsOf, jsSetSize, jsSetElems, svz]
  · simp [SchemaJs.validateSchema, uniqSchema, jGet, listGet, SchemaJs.validateTypeO,
      SchemaJs.validateType, truthyO, truthy, SchemaJs.arrayBoundErrors,
      SchemaJs.enumErrors, SchemaJs.elemsOf, jsSetSize, jsSetElems, svz]

-- ====================================================================
-- C7 — string length bounds
-- ====================================================================

-- A string schema carrying both length bounds.
def lenSchema (mi ma : ℚ) : JVal :=
  JVal.obj [("type", JVal.str "string"), ("minLength", JVal.num mi),
    ("maxLength", JVal.num ma)]

/-- C7 counterexample: "😀" is one Unicode codepoint but two UTF-16 code
units; against maxLength 1 the claim (codepoint counting) predicts no error,
yet the code (JavaScript .length, UTF-16 units) reports one. -/
theorem c7_counterexample :
    SchemaJs.validateSchema noOracles (JVal.str "😀")
      (JVal.obj [("type", JVal.str "string"), ("maxLength", JVal.num 1)]) =
      ["String length must be <= 1"] := by
  have h : utf16Len "😀" = 2 := by decide
  simp [SchemaJs.validateSchema, jGet, listGet, SchemaJs.validateTypeO,
    SchemaJs.validateType, truthyO, truthy, SchemaJs.stringErrors, SchemaJs.enumErrors,
    SchemaJs.strOf, h, jsToDisplay]
  rfl

/-- C7 amended: for every string value under a string schema with minLength
and maxLength, the length compared against the bounds is the UTF-16 code
unit count (codepoints above the Basic Multilingual Plane count twice), not
the codepoint count. -/
theorem c7_theorem :
    ∀ (o : JsOracles) (s : String) (mi ma : ℚ),
      SchemaJs.validateSchema o (JVal.str s) (lenSchema mi ma) =
        (if (utf16Len s : ℚ) < mi then ["String length must be >= " ++ toString mi] else []) ++
        (if (utf16Len s : ℚ) > ma then ["String length must be <= " ++ toString ma] else []) := by
  intro o s mi ma
  simp [SchemaJs.validateSchema, lenSchema, jGet, listGet, SchemaJs.validateTypeO,
    SchemaJs.validateType, truthyO, truthy, SchemaJs.stringErrors, SchemaJs.enumErrors,
    SchemaJs.strOf, jsToDisplay]

-- ====================================================================
-- C9 — numeric bounds and multipleOf
-- ====================================================================

-- A number schema with both bounds.
def minMaxSchema (mi ma : ℚ) : JVal :=
  JVal.obj [("type", JVal.str "number"), ("minimum", JVal.num mi),
    ("maximum", JVal.num ma)]

-- The integer-kind variant.
def intMinMaxSchema (mi ma : ℚ) : JVal :=
  JVal.obj [("type", JVal.str "integer"), ("minimum", JVal.num mi),
    ("maximum", JVal.num ma)]

-- A number schema with a multipleOf divisor.
def mulSchema (d : ℚ) : JVal :=
  JVal.obj [("type", JVal.str "number"), ("multipleOf", JVal.num d)]

/-- C9: for number and integer kinds the minimum/maximum bounds are
inclusive — the error condition is value < minimum resp. value > maximum,
so a value equal to either bound produces no bound error — and for a
nonzero divisor the multipleOf error is reported iff the truncating
JavaScript remainder of value by the divisor is not exactly zero. -/
theorem c9_theorem :
    (∀ (o : JsOracles) (q mi ma : ℚ),
      SchemaJs.validateSchema o (JVal.num q) (minMaxSchema mi ma) =
        (if q < mi then ["Value must be >= " ++ toString mi] else []) ++
        (if q > ma then ["Value must be <= " ++ toString ma] else [])) ∧
    (∀ (o : JsOracles) (n : ℤ) (mi ma : ℚ),
      SchemaJs.validateSchema o (JVal.num (n : ℚ)) (intMinMaxSchema mi ma) =
        (if (n : ℚ) < mi then ["Value must be >= " ++ toString mi] else []) ++
        (if (n : ℚ) > ma then ["Value must be <= " ++ toString ma] else [])) ∧
    (∀ (o : JsOracles) (q d : ℚ), d ≠ 0 →
      SchemaJs.validateSchema o (JVal.num q) (mulSchema d) =
        if jsRem q d = 0 then [] else ["Value must be multiple of " ++ toString d]) := by
  refine ⟨?_, ?_, ?_⟩
  · intro o q mi ma
    simp [SchemaJs.validateSchema, minMaxSchema, jGet, listGet, SchemaJs.validateTypeO,
      SchemaJs.validateType, truthyO, truthy, SchemaJs.numberErrors, SchemaJs.enumErrors,
      SchemaJs.numOf, jsToDisplay]
  · intro o n mi ma
    simp [SchemaJs.validateSchema, intMinMaxSchema, jGet, listGet, SchemaJs.validateTypeO,
      SchemaJs.validateType, truthyO, truthy, SchemaJs.numberErrors, SchemaJs.enumErrors,
      SchemaJs.numOf, jsToDisplay, Rat.den_intCast]
  · intro o q d hd
    by_cases hr : jsRem q d = 0
    · simp [SchemaJs.validateSchema, mulSchema, jGet, listGet, SchemaJs.validateTypeO,
        SchemaJs.validateType, truthyO, truthy, SchemaJs.numberErrors, SchemaJs.enumErrors,
        SchemaJs.numOf, jsToDisplay, hd, hr]
    · simp [SchemaJs.validateSchema, mulSchema, jGet, listGet, SchemaJs.validateTypeO,
        SchemaJs.validateType, truthyO, truthy, SchemaJs.numberErrors, SchemaJs.enumErrors,
        SchemaJs.numOf, jsToDisplay, hd, hr]

/-- C9 witness: 4 is a multiple of 2 (no error), 3 is not (one error), and a
value equal to its minimum bound passes. -/
theorem c9_witness :
    SchemaJs.validateSchema noOracles (JVal.num 4) (mulSchema 2) = [] ∧
    SchemaJs.validateSchema noOracles (JVal.num 3) (mulSchema 2) =
      ["Value must be multiple of 2"] ∧
    SchemaJs.validateSchema noOracles (JVal.num 5) (minMaxSchema 5 7) = [] := by
  refine ⟨?_, ?_, ?_⟩
  · have h := c9_theorem.2.2 noOracles 4 2 (by norm_num)
    have hr : jsRem 4 2 = 0 := by
      simp [jsRem, jsTrunc]
      norm_num
    rw [h, if_pos hr]
  · have h := c9_theorem.2.2 noOracles 3 2 (by norm_num)
    have hr : jsRem 3 2 ≠ 0 := by
      simp [jsRem, jsTrunc]
      norm_num
    rw [h, if_neg hr]
    rfl
  · have h := c9_theorem.1 noOracles 5 5 7
    rw [h]
    norm_num


-- ====================================================================
-- C8 — object-kind validation
-- ====================================================================

-- An object schema with the given properties and required names.
def objSchemaJ (props : List (String × JVal)) (required : List String) : JVal :=
  JVal.obj [("type", JVal.str "object"), ("properties", JVal.obj props),
    ("required", JVal.arr (required.map JVal.str))]

-- Unfolding an object schema: the error list is exactly the required-name
-- errors followed by the per-declared-property errors.
theorem validateSchema_objSchemaJ (o : JsOracles) (props : List (String × JVal))
    (required : List String) (fields : List (String × JVal)) :
    SchemaJs.validateSchema o (JVal.obj fields) (objSchemaJ props required) =
      SchemaJs.requiredErrors fields (required.map JVal.str) ++
      SchemaJs.validatePropList o fields props := by
  simp [SchemaJs.validateSchema, objSchemaJ, jGet, listGet, SchemaJs.validateTypeO,
    SchemaJs.validateType, truthyO, truthy, SchemaJs.fieldsOf, SchemaJs.enumErrors]

theorem requiredErrors_mem {fields : List (String × JVal)} {rs : List String} {r : String}
    (h : r ∈ rs) (hl : listGet fields r = none) :
    ("Missing required property: " ++ r) ∈ SchemaJs.requiredErrors fields (rs.map JVal.str) := by
  induction rs with
  | nil => simp at h
  | cons a tail ih =>
    simp only [List.map_cons, SchemaJs.requiredErrors, jsToDisplay]
    rcases List.mem_cons.mp h with h1 | h2
    · subst h1
      simp [hl]
    · exact List.mem_append_right _ (ih h2)

theorem validatePropList_mem {o : JsOracles} {fields props : List (String × JVal)}
    {k : String} {psch v : JVal}
    (h : (k, psch) ∈ props) (hl : listGet fields k = some v)
    (he : SchemaJs.validateSchema o v psch ≠ []) :
    ("Property " ++ k ++ ": " ++ String.intercalate ", " (SchemaJs.validateSchema o v psch)) ∈
      SchemaJs.validatePropList o fields props := by
  induction props with
  | nil => simp at h
  | cons p tail ih =>
    obtain ⟨k1, p1⟩ := p
    rcases List.mem_cons.mp h with h1 | h2
    · rw [Prod.mk.injEq] at h1
      obtain ⟨hk, hp⟩ := h1
      subst hk
      subst hp
      simp only [SchemaJs.validatePropList, hl]
      simp [he]
    · simp only [SchemaJs.validatePropList]
      exact List.mem_append_right _ (ih h2)

theorem listGet_cons_ne {k r : String} {w : JVal} {fields : List (String × JVal)}
    (h : k ≠ r) : listGet ((k, w) :: fields) r = listGet fields r := by
  simp [listGet, h]

theorem requiredErrors_indep {k : String} {w : JVal} {fields : List (String × JVal)}
    {rs : List String} (h : k ∉ rs) :
    SchemaJs.requiredErrors ((k, w) :: fields) (rs.map JVal.str) =
      SchemaJs.requiredErrors fields (rs.map JVal.str) := by
  induction rs with
  | nil => rfl
  | cons a tail ih =>
    have hka : k ≠ a := by
      intro he
      exact h (he ▸ List.mem_cons_self a tail)
    have htail : k ∉ tail := fun hm => h (List.mem_cons_of_mem a hm)
    simp only [List.map_cons, SchemaJs.requiredErrors, jsToDisplay,
      listGet_cons_ne hka, ih htail]

theorem validatePropList_indep {o : JsOracles} {k : String} {w : JVal}
    {fields props : List (String × JVal)} (h : k ∉ props.map Prod.fst) :
    SchemaJs.validatePropList o ((k, w) :: fields) props =
      SchemaJs.validatePropList o fields props := by
  induction props with
  | nil => simp [SchemaJs.validatePropList]
  | cons p tail ih =>
    obtain ⟨k1, p1⟩ := p
    have hk1 : k ≠ k1 := by
      intro he
      apply h
      simp [he]
    have htail : k ∉ tail.map Prod.fst := by
      intro hm
      apply h
      simp [hm]
    simp only [SchemaJs.validatePropList, listGet_cons_ne hk1, ih htail]

/-- C8: under an object-kind schema, a missing-property error is reported
for every required name absent from the value; every value key declared in
properties is recursively validated and its sub-errors surface as a
prefixed Property error; and a key not declared in properties (and not
required) changes nothing — the error list is identical with or without it
(open-world objects). -/
theorem c8_theorem :
    (∀ (o : JsOracles) (props fields : List (String × JVal)) (required : List String)
       (r : String), r ∈ required → listGet fields r = none →
      ("Missing required property: " ++ r) ∈
        SchemaJs.validateSchema o (JVal.obj fields) (objSchemaJ props required)) ∧
    (∀ (o : JsOracles) (props fields : List (String × JVal)) (required : List String)
       (k : String) (psch v : JVal), (k, psch) ∈ props → listGet fields k = some v →
      SchemaJs.validateSchema o v psch ≠ [] →
      ("Property " ++ k ++ ": " ++ String.intercalate ", " (SchemaJs.validateSchema o v psch)) ∈
        SchemaJs.validateSchema o (JVal.obj fields) (objSchemaJ props required)) ∧
    (∀ (o : JsOracles) (props fields : List (String × JVal)) (required : List String)
       (k : String) (w : JVal), k ∉ props.map Prod.fst → k ∉ required →
      SchemaJs.validateSchema o (JVal.obj ((k, w) :: fields)) (objSchemaJ props required) =
        SchemaJs.validateSchema o (JVal.obj fields) (objSchemaJ props required)) := by
  refine ⟨?_, ?_, ?_⟩
  · intro o props fields required r hr hl
    rw [validateSchema_objSchemaJ]
    exact List.mem_append_left _ (requiredErrors_mem hr hl)
  · intro o props fields required k psch v hk hl he
    rw [validateSchema_objSchemaJ]
    exact List.mem_append_right _ (validatePropList_mem hk hl he)
  · intro o props fields required k w hk hr
    rw [validateSchema_objSchemaJ, validateSchema_objSchemaJ,
      requiredErrors_indep hr, validatePropList_indep hk]

-- The {type: string} property schema used by the C8 witness.
def strS : JVal := JVal.obj [("type", JVal.str "string")]

/-- C8 witness: against {properties: {x: string}, required: [x, y]} and the
value {x: 3}, the required name y yields a missing-property error, the
declared key x surfaces its sub-error, and adding the undeclared key z
leaves the result unchanged. -/
theorem c8_witness :
    ("Missing required property: y") ∈
      SchemaJs.validateSchema noOracles (JVal.obj [("x", JVal.num 3)])
        (objSchemaJ [("x", strS)] ["x", "y"]) ∧
    ("Property x: Expected type string, got number") ∈
      SchemaJs.validateSchema noOracles (JVal.obj [("x", JVal.num 3)])
        (objSchemaJ [("x", strS)] ["x", "y"]) ∧
    SchemaJs.validateSchema noOracles (JVal.obj [("z", JVal.null), ("x", JVal.num 3)])
      (objSchemaJ [("x", strS)] ["x", "y"]) =
    SchemaJs.validateSchema noOracles (JVal.obj [("x", JVal.num 3)])
      (objSchemaJ [("x", strS)] ["x", "y"]) := by
  have hsub : SchemaJs.validateSchema noOracles (JVal.num 3) strS =
      ["Expected type string, got number"] := by
    simp [SchemaJs.validateSchema, strS, jGet, listGet, SchemaJs.validateTypeO,
      SchemaJs.validateType, truthyO, truthy, SchemaJs.enumErrors, jsToDisplayO,
      jsToDisplay, jsTypeof]
  refine ⟨?_, ?_, ?_⟩
  · exact c8_theorem.1 noOracles [("x", strS)] [("x", JVal.num 3)] ["x", "y"] "y"
      (by decide) (by rfl)
  · have h := c8_theorem.2.1 noOracles [("x", strS)] [("x", JVal.num 3)] ["x", "y"]
      "x" strS (JVal.num 3) (by simp) (by rfl) (by rw [hsub]; simp)
    rw [hsub] at h
    simpa using h
  · exact c8_theorem.2.2 noOracles [("x", strS)] [("x", JVal.num 3)] ["x", "y"]
      "z" JVal.null (by decide) (by decide)

-- ====================================================================
-- C5 — schema-shape validation of array schemas
-- ====================================================================

-- An array schema with no items definition.
def arrNoItems : JVal := JVal.obj [("type", JVal.str "array")]

-- A schema with two independent top-level violations (missing type,
-- non-array required) plus an invalid property sub-schema.
def accSchema : JVal :=
  JVal.obj [("required", JVal.str "x"), ("properties", JVal.obj [("a", JVal.obj [])])]

-- A schema with a bad property sub-schema AND a non-array required field:
-- the throwing validator reports only the first.
def firstOnlySchema : JVal :=
  JVal.obj [("type", JVal.str "object"), ("properties", JVal.obj [("a", JVal.obj [])]),
    ("required", JVal.num 5)]

/-- C5 counterexample: no single shape validator has both claimed
properties.  The list-returning validateToolSchema reports zero errors (not
exactly one) for an array schema lacking items — it has no items check at
all — while the validator that does check items (validation.js
validateSchema) is exception-style: on a schema with two violations (bad
property sub-schema and non-array required) it reports only the first, not
all violations as a list. -/
theorem c5_counterexample :
    SchemaJs.validateToolSchema arrNoItems = [] ∧
    ValidationJs.validateSchema firstOnlySchema =
      .error ⟨"INVALID_SCHEMA", "Schema must have a type"⟩ := by
  constructor
  · simp [SchemaJs.validateToolSchema, arrNoItems, jGet, listGet, truthyO, truthy, jsTypeof]
  · simp [ValidationJs.validateSchema, ValidationJs.validateObjectSchema,
      ValidationJs.validateSchemaFieldList, ValidationJs.requiredCheck,
      firstOnlySchema, jGet, listGet, truthyO, truthy, jsTypeof, Except.bind]

/-- C5 amended: the throwing validator (validation.js) rejects every
array-kind schema whose items field is missing or falsy with exactly the
single error "Array schema must have items definition", stopping at the
first violation it finds; the list-returning validateToolSchema (schema.js)
accumulates all violations of the checks it performs (type presence,
JS types of properties/required, property sub-schemas) but performs no
items check, so an array schema lacking items passes it without error. -/
theorem c5_theorem :
    (∀ j : JVal, truthy j = true → jsTypeof j = "object" →
      jGet j "type" = some (JVal.str "array") →
      truthyO (jGet j "items") = false →
      ValidationJs.validateSchema j =
        .error ⟨"INVALID_SCHEMA", "Array schema must have items definition"⟩) ∧
    SchemaJs.validateToolSchema arrNoItems = [] ∧
    SchemaJs.validateToolSchema accSchema =
      ["Schema must have a type field", "Required must be an array",
       "Invalid property schema for a: Schema must have a type field"] := by
  refine ⟨?_, ?_, ?_⟩
  · intro j ht hty htype hitems
    have hstep : ValidationJs.validateSchema j = ValidationJs.validateArraySchema j := by
      rw [ValidationJs.validateSchema.eq_def]
      simp [ht, hty, htype, truthyO, show truthy (JVal.str "array") = true from rfl]
    rw [hstep, ValidationJs.validateArraySchema.eq_def]
    cases hjm : jGet j "items" with
    | none => simp [hjm]
    | some it =>
      rw [hjm] at hitems
      have hit : truthy it = false := by simpa [truthyO] using hitems
      simp [hjm, hit]
  · simp [SchemaJs.validateToolSchema, arrNoItems, jGet, listGet, truthyO, truthy, jsTypeof]
  · simp [SchemaJs.validateToolSchema, SchemaJs.toolSchemaPropList, accSchema, jGet,
      listGet, truthyO, truthy, jsTypeof, String.intercalate, String.intercalate.go]

/-- C5 witness: the concrete array schema {type: "array"} (no items) is
rejected by the throwing validator with exactly the missing-items error. -/
theorem c5_witness :
    ValidationJs.validateSchema arrNoItems =
      .error ⟨"INVALID_SCHEMA", "Array schema must have items definition"⟩ :=
  c5_theorem.1 arrNoItems (by rfl) (by rfl) (by rfl) (by rfl)
